import Mathlib

/-!
Verification of the vendor-annotation XML model of `fmi-schema`
(`src/fmi-schema/src/fmi3/annotation.rs`).

The repository declares two Rust structs, `Fmi3Annotations` and `Annotation`,
whose XML (de)serializers are generated by the `yaserde` derive macros; the
generated decode/encode bodies are not part of the repository sources, only
the struct declarations (with their `#[yaserde(...)]` attributes) and the
unit tests are.  Following the specification of the core, the decode and
encode operations are modelled here from the spec's words: a permissive XML
tokenizer producing a generic node tree, a node-level decoder for each of the
two types, and a text-level encoder.  The model is checked against the
fixtures of the repository's own unit tests (see the `matchesTest...`
theorems below).
-/

set_option maxRecDepth 8192
set_option maxHeartbeats 1000000

namespace FmiSchema

/-- Modelled from the spec: the error taxonomy of §7 (the derive-generated
Rust code surfaces plain strings; the spec names these four classes). -/
inductive DecodeError where
  | unexpectedRoot
  | unexpectedTag
  | missingRequiredAttribute (name : String)
  | malformedXml
  deriving Repr, DecidableEq

/-- Generic XML node: an element with a tag name, attributes and children, or
a run of character data. -/
inductive XmlNode where
  | elem (name : String) (attrs : List (String × String)) (children : List XmlNode)
  | text (s : String)
  deriving Repr

/-- A single vendor-specific annotation (`pub struct Annotation` in
`annotation.rs`): only the `type` attribute is materialized; nested
vendor-specific XML content is not captured. -/
structure Annotation where
  type : String
  deriving Repr, DecidableEq

/-- Container for vendor-specific annotations (`pub struct Fmi3Annotations`
in `annotation.rs`): an ordered sequence of entries. -/
structure Fmi3Annotations where
  annotations : List Annotation
  deriving Repr, DecidableEq

/-- XML whitespace. -/
def isSpace (c : Char) : Bool :=
  c = ' ' || c = '\n' || c = '\t' || c = '\r'

/-- Characters allowed in a tag or attribute name. -/
def isNameChar (c : Char) : Bool :=
  ('a' ≤ c && c ≤ 'z') || ('A' ≤ c && c ≤ 'Z') || ('0' ≤ c && c ≤ '9') ||
  c = '_' || c = '-' || c = '.' || c = ':'

/-- The characters that are special in XML markup and attribute values. -/
def isXmlSpecial (c : Char) : Bool :=
  c = '<' || c = '>' || c = '&' || c = '"' || c = '\''

/-- Drop leading whitespace. -/
def skipWs : List Char → List Char
  | c :: cs => if isSpace c then skipWs cs else c :: cs
  | [] => []

/-- Read a maximal run of name characters. -/
def readName : List Char → List Char × List Char
  | c :: cs =>
    if isNameChar c then
      let (n, r) := readName cs
      (c :: n, r)
    else ([], c :: cs)
  | [] => ([], [])

/-- Read a maximal run of character data (up to the next markup start). -/
def readText : List Char → List Char × List Char
  | c :: cs =>
    if c = '<' then ([], c :: cs)
    else
      let (t, r) := readText cs
      (c :: t, r)
  | [] => ([], [])

/-- Modelled from the spec: the tokenizer's scan of a double-quoted attribute
value, unescaping the five predefined entities; an unterminated value, a raw
markup start or an invalid escape is malformed XML (§7).  Returns the value
and the input after the closing quote. -/
def readAttrValue : List Char → Except DecodeError (List Char × List Char)
  | [] => .error .malformedXml
  | c :: cs =>
    if c = '"' then .ok ([], cs)
    else if c = '&' then
      match cs with
      | 'a' :: 'm' :: 'p' :: ';' :: r =>
        match readAttrValue r with
        | .ok (v, rest) => .ok ('&' :: v, rest)
        | .error e => .error e
      | 'l' :: 't' :: ';' :: r =>
        match readAttrValue r with
        | .ok (v, rest) => .ok ('<' :: v, rest)
        | .error e => .error e
      | 'g' :: 't' :: ';' :: r =>
        match readAttrValue r with
        | .ok (v, rest) => .ok ('>' :: v, rest)
        | .error e => .error e
      | 'q' :: 'u' :: 'o' :: 't' :: ';' :: r =>
        match readAttrValue r with
        | .ok (v, rest) => .ok ('"' :: v, rest)
        | .error e => .error e
      | 'a' :: 'p' :: 'o' :: 's' :: ';' :: r =>
        match readAttrValue r with
        | .ok (v, rest) => .ok ('\'' :: v, rest)
        | .error e => .error e
      | _ => .error .malformedXml
    else if c = '<' then .error .malformedXml
    else
      match readAttrValue cs with
      | .ok (v, rest) => .ok (c :: v, rest)
      | .error e => .error e

/-- Modelled from the spec: the tokenizer's scan of an attribute list, ending
just before the `>` or `/>` that closes the start tag.  The fuel bounds the
number of attributes and is always passed large enough (the enclosing node
parser hands down its own fuel, which the entry point seeds with the input
length). -/
def parseAttrs : Nat → List Char → Except DecodeError (List (String × String) × List Char)
  | 0, _ => .error .malformedXml
  | fuel + 1, cs =>
    match skipWs cs with
    | [] => .error .malformedXml
    | c :: cs' =>
      if c = '>' then .ok ([], c :: cs')
      else if c = '/' then .ok ([], c :: cs')
      else
        match readName (c :: cs') with
        | ([], _) => .error .malformedXml
        | (n, r) =>
          match r with
          | '=' :: '"' :: r2 =>
            match readAttrValue r2 with
            | .ok (v, r3) =>
              match skipWs r3 with
              | '>' :: r4 => .ok ([(String.mk n, String.mk v)], '>' :: r4)
              | '/' :: r4 => .ok ([(String.mk n, String.mk v)], '/' :: r4)
              | r4 =>
                match parseAttrs fuel r4 with
                | .ok (rest, r5) => .ok ((String.mk n, String.mk v) :: rest, r5)
                | .error e => .error e
            | .error e => .error e
          | _ => .error .malformedXml

/-- Modelled from the spec: the XML tokenizer's parse of a sequence of sibling
nodes.  It stops at the end of input or just before an end tag (left for the
caller); a start tag is parsed together with its children and its matching end
tag, and a mismatched or missing end tag is malformed XML (§7).  The fuel
bounds the number of markup items; the entry point passes the input length. -/
def parseNodes : Nat → List Char → Except DecodeError (List XmlNode × List Char)
  | 0, _ => .error .malformedXml
  | fuel + 1, cs =>
    match cs with
    | [] => .ok ([], [])
    | '<' :: '/' :: rest => .ok ([], '<' :: '/' :: rest)
    | '<' :: rest =>
      match readName rest with
      | ([], _) => .error .malformedXml
      | (n, r) =>
        match parseAttrs (fuel + 1) r with
        | .error e => .error e
        | .ok (attrs, r2) =>
          match r2 with
          | '/' :: '>' :: r3 =>
            match parseNodes fuel r3 with
            | .ok (ns, rest') => .ok (.elem (String.mk n) attrs [] :: ns, rest')
            | .error e => .error e
          | '>' :: r3 =>
            match parseNodes fuel r3 with
            | .error e => .error e
            | .ok (children, r4) =>
              match r4 with
              | '<' :: '/' :: r5 =>
                match readName r5 with
                | (n2, r6) =>
                  if n2 = n then
                    match skipWs r6 with
                    | '>' :: r7 =>
                      match parseNodes fuel r7 with
                      | .ok (ns, rest') =>
                        .ok (.elem (String.mk n) attrs children :: ns, rest')
                      | .error e => .error e
                    | _ => .error .malformedXml
                  else .error .malformedXml
              | _ => .error .malformedXml
          | _ => .error .malformedXml
    | c :: rest =>
      match readText (c :: rest) with
      | (t, r) =>
        match parseNodes fuel r with
        | .ok (ns, rest') => .ok (.text (String.mk t) :: ns, rest')
        | .error e => .error e

/-- Modelled from the spec: the underlying XML layer's parse of a wellformed
fragment into its root element; anything that is not a single wellformed
element is malformed XML (§7). -/
def parseXml (s : String) : Except DecodeError XmlNode :=
  match parseNodes (s.data.length + 3) s.data with
  | .error e => .error e
  | .ok ([XmlNode.elem n a c], []) => .ok (.elem n a c)
  | .ok _ => .error .malformedXml

/-- Look up an attribute by name (first occurrence). -/
def lookupAttr (k : String) : List (String × String) → Option String
  | [] => none
  | (k', v) :: rest => if k' = k then some v else lookupAttr k rest

/-- Modelled from the spec (§4.2): the derive-generated decoder of a single
`Annotation` element, which is absent from `src/`.  Requires the tag name
`Annotation`, otherwise `UnexpectedTag`; reads the required `type` attribute,
failing with `MissingRequiredAttribute("type")` when it is absent; consumes
and discards any nested children without interpreting them. -/
def Annotation.decode (n : XmlNode) : Except DecodeError Annotation :=
  match n with
  | .elem name attrs _children =>
    if name = "Annotation" then
      match lookupAttr "type" attrs with
      | some t => .ok { type := t }
      | none => .error (.missingRequiredAttribute "type")
    else .error .unexpectedTag
  | .text _ => .error .unexpectedTag

/-- Modelled from the spec (§4.1): decode the immediate child elements named
`Annotation` in document order, delegating each one to the entry decoder and
failing fast on the first error (no partial results); other children are
skipped. -/
def decodeAnnotationList : List XmlNode → Except DecodeError (List Annotation)
  | [] => .ok []
  | n :: rest =>
    match n with
    | .elem "Annotation" attrs children =>
      match Annotation.decode (.elem "Annotation" attrs children) with
      | .error e => .error e
      | .ok a =>
        match decodeAnnotationList rest with
        | .ok as => .ok (a :: as)
        | .error e => .error e
    | _ => decodeAnnotationList rest

/-- Modelled from the spec (§4.1): the derive-generated decoder of the
`Annotations` wrapper element, which is absent from `src/`.  The root tag
name must be exactly `Annotations`, otherwise `UnexpectedRoot`. -/
def Fmi3Annotations.decodeElem (n : XmlNode) : Except DecodeError Fmi3Annotations :=
  match n with
  | .elem name _ children =>
    if name = "Annotations" then
      match decodeAnnotationList children with
      | .ok as => .ok { annotations := as }
      | .error e => .error e
    else .error .unexpectedRoot
  | .text _ => .error .unexpectedRoot

/-- Modelled from the spec (§4.1): `decode(xml_fragment: text)`, the full
pipeline from text through the tokenizer to the container value. -/
def Fmi3Annotations.decode (s : String) : Except DecodeError Fmi3Annotations :=
  match parseXml s with
  | .ok n => Fmi3Annotations.decodeElem n
  | .error e => .error e

/-- XML attribute escaping of one character. -/
def escapeChar (c : Char) : List Char :=
  if c = '&' then ['&', 'a', 'm', 'p', ';']
  else if c = '<' then ['&', 'l', 't', ';']
  else if c = '>' then ['&', 'g', 't', ';']
  else if c = '"' then ['&', 'q', 'u', 'o', 't', ';']
  else if c = '\'' then ['&', 'a', 'p', 'o', 's', ';']
  else [c]

/-- XML attribute escaping of a character sequence. -/
def escapeChars : List Char → List Char
  | [] => []
  | c :: cs => escapeChar c ++ escapeChars cs

/-- XML attribute escaping of a string. -/
def escapeAttr (s : String) : String :=
  String.mk (escapeChars s.data)

/-- Modelled from the spec (§4.2): the derive-generated encoder of a single
entry, which is absent from `src/`: a self-closing element carrying only the
stored `type` value, attribute-escaped; nested content is never emitted. -/
def Annotation.encode (a : Annotation) : String :=
  "<Annotation type=\"" ++ escapeAttr a.type ++ "\"/>"

/-- Encode a sequence of entries in order. -/
def encodeList : List Annotation → String
  | [] => ""
  | a :: rest => Annotation.encode a ++ encodeList rest

/-- Modelled from the spec (§4.1): the derive-generated encoder of the
container, which is absent from `src/`: the `Annotations` wrapper around the
encoding of each entry in sequence order. -/
def Fmi3Annotations.encode (x : Fmi3Annotations) : String :=
  "<Annotations>" ++ encodeList x.annotations ++ "</Annotations>"

/-- The model reproduces the repository unit test `test_empty_annotations`. -/
theorem matchesTestEmpty :
    Fmi3Annotations.decode "<Annotations></Annotations>" = .ok { annotations := [] } := by
  rfl

/-- The model reproduces the repository unit test
`test_single_annotation_no_content`. -/
theorem matchesTestSingle :
    Fmi3Annotations.decode
        "<Annotations>\n            <Annotation type=\"com.example.vendor\"/>\n        </Annotations>" =
      .ok { annotations := [{ type := "com.example.vendor" }] } := by
  rfl

/-- The model reproduces the repository unit test `test_multiple_annotations`. -/
theorem matchesTestMultiple :
    Fmi3Annotations.decode
        "<Annotations>\n            <Annotation type=\"com.vendor1\"/>\n            <Annotation type=\"com.vendor2\"/>\n        </Annotations>" =
      .ok { annotations := [{ type := "com.vendor1" }, { type := "com.vendor2" }] } := by
  rfl

/-- The model reproduces the repository unit test
`test_annotation_with_nested_content`. -/
theorem matchesTestNested :
    Fmi3Annotations.decode
        "<Annotations>\n            <Annotation type=\"com.mathworks.Simulink\">\n                <Simulink>\n                    <ImportCompatibility FMUProduct=\"standalone FMU\"/>\n                </Simulink>\n            </Annotation>\n        </Annotations>" =
      .ok { annotations := [{ type := "com.mathworks.Simulink" }] } := by
  rfl

theorem readAttrValue_noSpecial (v : List Char)
    (hv : v.all (fun c => !isXmlSpecial c) = true) (rest : List Char) :
    readAttrValue (v ++ '"' :: rest) = .ok (v, rest) := by
  induction v with
  | nil =>
    rw [List.nil_append, readAttrValue.eq_def]
    simp
  | cons c v' ih =>
    simp only [List.all_cons, Bool.and_eq_true] at hv
    have hc := hv.1
    simp only [isXmlSpecial, Bool.not_eq_true', Bool.or_eq_false_iff,
      decide_eq_false_iff_not] at hc
    obtain ⟨⟨⟨⟨h1, h2⟩, h3⟩, h4⟩, h5⟩ := hc
    rw [List.cons_append, readAttrValue.eq_def]
    simp only [if_neg h4, if_neg h3, if_neg h1, ih hv.2]

theorem escapeChars_noSpecial (v : List Char)
    (hv : v.all (fun c => !isXmlSpecial c) = true) :
    escapeChars v = v := by
  induction v with
  | nil => rfl
  | cons c v' ih =>
    simp only [List.all_cons, Bool.and_eq_true] at hv
    have hc := hv.1
    simp only [isXmlSpecial, Bool.not_eq_true', Bool.or_eq_false_iff,
      decide_eq_false_iff_not] at hc
    obtain ⟨⟨⟨⟨h1, h2⟩, h3⟩, h4⟩, h5⟩ := hc
    simp only [escapeChars, escapeChar, if_neg h1, if_neg h2, if_neg h3, if_neg h4, if_neg h5,
      ih hv.2, List.singleton_append]

theorem parseAttrs_type (g : Nat) (v rest : List Char)
    (hv : v.all (fun c => !isXmlSpecial c) = true) :
    parseAttrs (g + 1) (' ' :: 't' :: 'y' :: 'p' :: 'e' :: '=' :: '"' :: (v ++ '"' :: '/' :: rest)) =
      .ok ([("type", String.mk v)], '/' :: rest) := by
  have hval := readAttrValue_noSpecial v hv ('/' :: rest)
  simp +decide [parseAttrs, skipWs, readName, isSpace, isNameChar, hval]

theorem parseAttrs_gt (g : Nat) (cs : List Char) :
    parseAttrs (g + 1) ('>' :: cs) = .ok ([], '>' :: cs) := by
  simp +decide [parseAttrs, skipWs, isSpace]

theorem parseNodes_stop (f : Nat) (rest : List Char) :
    parseNodes (f + 1) ('<' :: '/' :: rest) = .ok ([], '<' :: '/' :: rest) := by
  simp +decide [parseNodes]

theorem parseNodes_inner (f : Nat) (v rest : List Char)
    (hv : v.all (fun c => !isXmlSpecial c) = true)
    (ns : List XmlNode) (r : List Char)
    (hrec : parseNodes f rest = .ok (ns, r)) :
    parseNodes (f + 1)
      ('<' :: 'A' :: 'n' :: 'n' :: 'o' :: 't' :: 'a' :: 't' :: 'i' :: 'o' :: 'n' :: ' ' ::
        't' :: 'y' :: 'p' :: 'e' :: '=' :: '"' :: (v ++ '"' :: '/' :: '>' :: rest)) =
      .ok (XmlNode.elem "Annotation" [("type", String.mk v)] [] :: ns, r) := by
  simp +decide [parseNodes, readName, isNameChar, parseAttrs_type f v ('>' :: rest) hv, hrec]

theorem parseNodes_single (f : Nat) (v : List Char)
    (hv : v.all (fun c => !isXmlSpecial c) = true) :
    parseNodes (f + 3)
      ('<' :: 'A' :: 'n' :: 'n' :: 'o' :: 't' :: 'a' :: 't' :: 'i' :: 'o' :: 'n' :: 's' :: '>' ::
       '<' :: 'A' :: 'n' :: 'n' :: 'o' :: 't' :: 'a' :: 't' :: 'i' :: 'o' :: 'n' :: ' ' ::
       't' :: 'y' :: 'p' :: 'e' :: '=' :: '"' ::
        (v ++ '"' :: '/' :: '>' ::
          '<' :: '/' :: 'A' :: 'n' :: 'n' :: 'o' :: 't' :: 'a' :: 't' :: 'i' :: 'o' :: 'n' :: 's' :: '>' :: [])) =
      .ok ([XmlNode.elem "Annotations" []
              [XmlNode.elem "Annotation" [("type", String.mk v)] []]], []) := by
  have hstop : parseNodes (f + 1)
      ('<' :: '/' :: 'A' :: 'n' :: 'n' :: 'o' :: 't' :: 'a' :: 't' :: 'i' :: 'o' :: 'n' :: 's' :: '>' :: []) =
      .ok ([], '<' :: '/' :: 'A' :: 'n' :: 'n' :: 'o' :: 't' :: 'a' :: 't' :: 'i' :: 'o' :: 'n' :: 's' :: '>' :: []) :=
    parseNodes_stop f _
  have hinner : parseNodes (f + 2)
      ('<' :: 'A' :: 'n' :: 'n' :: 'o' :: 't' :: 'a' :: 't' :: 'i' :: 'o' :: 'n' :: ' ' ::
        't' :: 'y' :: 'p' :: 'e' :: '=' :: '"' ::
        (v ++ '"' :: '/' :: '>' ::
          '<' :: '/' :: 'A' :: 'n' :: 'n' :: 'o' :: 't' :: 'a' :: 't' :: 'i' :: 'o' :: 'n' :: 's' :: '>' :: [])) =
      .ok ([XmlNode.elem "Annotation" [("type", String.mk v)] []],
        '<' :: '/' :: 'A' :: 'n' :: 'n' :: 'o' :: 't' :: 'a' :: 't' :: 'i' :: 'o' :: 'n' :: 's' :: '>' :: []) :=
    parseNodes_inner (f + 1) v _ hv [] _ hstop
  have hattr := parseAttrs_type (f + 1) v
    ('>' :: '<' :: '/' :: 'A' :: 'n' :: 'n' :: 'o' :: 't' :: 'a' :: 't' :: 'i' :: 'o' :: 'n' :: 's' :: '>' :: []) hv
  simp +decide [parseNodes, readName, isNameChar, skipWs, isSpace, hinner, parseAttrs_gt, hattr]

theorem decode_single (v : List Char)
    (hv : v.all (fun c => !isXmlSpecial c) = true) :
    Fmi3Annotations.decode (String.mk
      ('<' :: 'A' :: 'n' :: 'n' :: 'o' :: 't' :: 'a' :: 't' :: 'i' :: 'o' :: 'n' :: 's' :: '>' ::
       '<' :: 'A' :: 'n' :: 'n' :: 'o' :: 't' :: 'a' :: 't' :: 'i' :: 'o' :: 'n' :: ' ' ::
       't' :: 'y' :: 'p' :: 'e' :: '=' :: '"' ::
        (v ++ '"' :: '/' :: '>' ::
          '<' :: '/' :: 'A' :: 'n' :: 'n' :: 'o' :: 't' :: 'a' :: 't' :: 'i' :: 'o' :: 'n' :: 's' :: '>' :: []))) =
      .ok { annotations := [{ type := String.mk v }] } := by
  simp only [Fmi3Annotations.decode, parseXml]
  rw [parseNodes_single _ v hv]
  simp +decide [Fmi3Annotations.decodeElem, decodeAnnotationList, Annotation.decode, lookupAttr]

theorem fragment_eq (s : String) :
    ("<Annotations><Annotation type=\"" ++ s ++ "\"/></Annotations>") = String.mk
      ('<' :: 'A' :: 'n' :: 'n' :: 'o' :: 't' :: 'a' :: 't' :: 'i' :: 'o' :: 'n' :: 's' :: '>' ::
       '<' :: 'A' :: 'n' :: 'n' :: 'o' :: 't' :: 'a' :: 't' :: 'i' :: 'o' :: 'n' :: ' ' ::
       't' :: 'y' :: 'p' :: 'e' :: '=' :: '"' ::
        (s.data ++ '"' :: '/' :: '>' ::
          '<' :: '/' :: 'A' :: 'n' :: 'n' :: 'o' :: 't' :: 'a' :: 't' :: 'i' :: 'o' :: 'n' :: 's' :: '>' :: [])) := by
  obtain ⟨v⟩ := s
  refine String.ext ?_
  rw [String.data_append, String.data_append, List.append_assoc]
  rfl

theorem encode_single_eq (s : String)
    (hv : s.data.all (fun c => !isXmlSpecial c) = true) :
    Fmi3Annotations.encode { annotations := [{ type := s }] } = String.mk
      ('<' :: 'A' :: 'n' :: 'n' :: 'o' :: 't' :: 'a' :: 't' :: 'i' :: 'o' :: 'n' :: 's' :: '>' ::
       '<' :: 'A' :: 'n' :: 'n' :: 'o' :: 't' :: 'a' :: 't' :: 'i' :: 'o' :: 'n' :: ' ' ::
       't' :: 'y' :: 'p' :: 'e' :: '=' :: '"' ::
        (s.data ++ '"' :: '/' :: '>' ::
          '<' :: '/' :: 'A' :: 'n' :: 'n' :: 'o' :: 't' :: 'a' :: 't' :: 'i' :: 'o' :: 'n' :: 's' :: '>' :: [])) := by
  obtain ⟨v⟩ := s
  simp only [List.all_eq_true] at hv
  refine String.ext ?_
  simp only [Fmi3Annotations.encode, encodeList, Annotation.encode, escapeAttr, String.data_append]
  rw [escapeChars_noSpecial v (by simp only [List.all_eq_true]; exact hv)]
  simp [List.append_assoc]


/-- C1: decoding an `Annotation` element that has no `type` attribute fails
with `DecodeError.missingRequiredAttribute "type"`, and when such an element
occurs inside an `Annotations` fragment the failure propagates out of the
enclosing container decode rather than producing a partial or empty entry. -/
theorem C1_missing_type_attribute_fails :
    (∀ (attrs : List (String × String)) (children : List XmlNode),
        lookupAttr "type" attrs = none →
          Annotation.decode (.elem "Annotation" attrs children) =
            .error (.missingRequiredAttribute "type")) ∧
      Fmi3Annotations.decode "<Annotations><Annotation></Annotation></Annotations>" =
        .error (.missingRequiredAttribute "type") := by
  refine ⟨fun attrs children h => ?_, ?_⟩
  · simp [ Annotation.decode, h]
  · rfl

/-- Witness for C1 at a concrete attribute list without `type`. -/
theorem C1_missing_type_attribute_fails_witness :
    Annotation.decode (.elem "Annotation" [("foo", "bar")] []) =
        .error (.missingRequiredAttribute "type") ∧
      Fmi3Annotations.decode "<Annotations><Annotation></Annotation></Annotations>" =
        .error (.missingRequiredAttribute "type") :=
  ⟨C1_missing_type_attribute_fails.1 [("foo", "bar")] [] rfl,
    C1_missing_type_attribute_fails.2⟩

/-- C2: for every non-empty string `s` with no XML-special characters,
decoding `<Annotations><Annotation type="s"/></Annotations>` yields exactly
one entry whose `type` equals `s`, and encoding that container and decoding
the result again reproduces the single entry with the same `type`. -/
theorem C2_attribute_fidelity (s : String) (hne : s ≠ "")
    (hv : s.data.all (fun c => !isXmlSpecial c) = true) :
    Fmi3Annotations.decode ("<Annotations><Annotation type=\"" ++ s ++ "\"/></Annotations>") =
        .ok { annotations := [{ type := s }] } ∧
      Fmi3Annotations.decode
          (Fmi3Annotations.encode { annotations := [{ type := s }] }) =
        .ok { annotations := [{ type := s }] } := by
  constructor
  · rw [fragment_eq s]
    exact decode_single s.data hv
  · rw [encode_single_eq s hv]
    exact decode_single s.data hv

/-- Witness for C2 at the concrete vendor string `com.vendor.tool`. -/
theorem C2_attribute_fidelity_witness :
    Fmi3Annotations.decode "<Annotations><Annotation type=\"com.vendor.tool\"/></Annotations>" =
        .ok { annotations := [{ type := "com.vendor.tool" }] } ∧
      Fmi3Annotations.decode
          (Fmi3Annotations.encode { annotations := [{ type := "com.vendor.tool" }] }) =
        .ok { annotations := [{ type := "com.vendor.tool" }] } :=
  C2_attribute_fidelity "com.vendor.tool" (by decide) (by decide)

/-- C3: decoding an `Annotation` element that carries a `type` attribute and
arbitrary nested children succeeds with only `type` populated, the result is
independent of the nested markup (so the markup is not retrievable), and
encoding never emits nested markup, checked on the spec's Simulink example. -/
theorem C3_nested_content_skipped :
    (∀ (t : String) (attrs : List (String × String)) (children children' : List XmlNode),
        lookupAttr "type" attrs = some t →
          Annotation.decode (.elem "Annotation" attrs children) = .ok { type := t } ∧
            Annotation.decode (.elem "Annotation" attrs children) =
              Annotation.decode (.elem "Annotation" attrs children')) ∧
      Fmi3Annotations.decode
          "<Annotations><Annotation type=\"com.mathworks.Simulink\"><Simulink><ImportCompatibility FMUProduct=\"standalone FMU\"/></Simulink></Annotation></Annotations>" =
        .ok { annotations := [{ type := "com.mathworks.Simulink" }] } ∧
      Fmi3Annotations.encode { annotations := [{ type := "com.mathworks.Simulink" }] } =
        "<Annotations><Annotation type=\"com.mathworks.Simulink\"/></Annotations>" := by
  refine ⟨fun t attrs children children' h => ⟨?_, ?_⟩, ?_, ?_⟩
  · simp [ Annotation.decode, h]
  · rfl
  · rfl
  · rfl

/-- Witness for C3 at a concrete element with nested text content. -/
theorem C3_nested_content_skipped_witness :
    Annotation.decode (.elem "Annotation" [("type", "x")] [.text "junk"]) = .ok { type := "x" } ∧
      Annotation.decode (.elem "Annotation" [("type", "x")] [.text "junk"]) =
        Annotation.decode (.elem "Annotation" [("type", "x")] []) :=
  C3_nested_content_skipped.1 "x" [("type", "x")] [.text "junk"] [] rfl

/-- C4: decoding two entries with types `v1` then `v2` yields the sequence
`[v1, v2]` in document order, neither reordered nor deduplicated, and
encoding that container emits the entries in the same order. -/
theorem C4_order_preserved :
    Fmi3Annotations.decode
        "<Annotations><Annotation type=\"v1\"/><Annotation type=\"v2\"/></Annotations>" =
        .ok { annotations := [{ type := "v1" }, { type := "v2" }] } ∧
      Fmi3Annotations.encode { annotations := [{ type := "v1" }, { type := "v2" }] } =
        "<Annotations><Annotation type=\"v1\"/><Annotation type=\"v2\"/></Annotations>" :=
  ⟨rfl, rfl⟩

/-- C5: decoding `<Annotations></Annotations>` yields an empty sequence, and
encoding the empty container produces output that decodes back to an empty
sequence. -/
theorem C5_empty_roundtrip :
    Fmi3Annotations.decode "<Annotations></Annotations>" = .ok { annotations := [] } ∧
      Fmi3Annotations.decode (Fmi3Annotations.encode { annotations := [] }) =
        .ok { annotations := [] } :=
  ⟨rfl, rfl⟩

/-- C6: decoding two entries carrying the same `type` value yields a sequence
of length 2 with both entries preserved, not deduplicated. -/
theorem C6_duplicates_preserved :
    Fmi3Annotations.decode
        "<Annotations><Annotation type=\"com.vendor\"/><Annotation type=\"com.vendor\"/></Annotations>" =
      .ok { annotations := [{ type := "com.vendor" }, { type := "com.vendor" }] } :=
  rfl

/-- C7: for every wellformed fragment whose root element name is not exactly
`Annotations`, the container decode fails with `DecodeError.unexpectedRoot`. -/
theorem C7_unexpected_root (s : String) (name : String)
    (attrs : List (String × String)) (children : List XmlNode)
    (hp : parseXml s = .ok (.elem name attrs children))
    (hname : name ≠ "Annotations") :
    Fmi3Annotations.decode s = .error .unexpectedRoot := by
  simp only [Fmi3Annotations.decode, hp, Fmi3Annotations.decodeElem, if_neg hname]

/-- Witness for C7 at the concrete fragment with root `Foo`. -/
theorem C7_unexpected_root_witness :
    Fmi3Annotations.decode "<Foo/>" = .error .unexpectedRoot :=
  C7_unexpected_root "<Foo/>" "Foo" [] [] rfl (by decide)

/-- C8: decoding the unterminated fragment
`<Annotations><Annotation type="x"></Annotations>` fails with a malformed-XML
error that originates in the tokenizer layer and is propagated unchanged. -/
theorem C8_malformed_xml :
    parseXml "<Annotations><Annotation type=\"x\"></Annotations>" = .error .malformedXml ∧
      Fmi3Annotations.decode "<Annotations><Annotation type=\"x\"></Annotations>" =
        .error .malformedXml :=
  ⟨rfl, rfl⟩

/-- C9 counterexample: decoding an `Annotations` fragment whose `Annotation`
child lacks the `type` attribute does not succeed with a default
empty-string entry. -/
theorem C9_default_type_counterexample :
    Fmi3Annotations.decode "<Annotations><Annotation/></Annotations>" ≠
      .ok { annotations := [{ type := "" }] } := by
  intro h
  rw [show Fmi3Annotations.decode "<Annotations><Annotation/></Annotations>" =
      .error (.missingRequiredAttribute "type") from rfl] at h
  exact Except.noConfusion h

/-- C9 amended: decoding an `Annotations` fragment whose `Annotation` child
lacks the `type` attribute fails with
`DecodeError.missingRequiredAttribute "type"` instead of succeeding with a
default empty-string entry. -/
theorem C9_missing_type_in_container_errors :
    Fmi3Annotations.decode "<Annotations><Annotation/></Annotations>" =
      .error (.missingRequiredAttribute "type") :=
  rfl

/-- C10: decode and encode are deterministic pure functions: equal inputs
give equal outputs, with no dependence on shared or external state. -/
theorem C10_deterministic (s t : String) (x y : Fmi3Annotations)
    (hst : s = t) (hxy : x = y) :
    Fmi3Annotations.decode s = Fmi3Annotations.decode t ∧
      Fmi3Annotations.encode x = Fmi3Annotations.encode y := by
  subst hst
  subst hxy
  exact ⟨rfl, rfl⟩

/-- Witness for C10 at concrete inputs. -/
theorem C10_deterministic_witness :
    Fmi3Annotations.decode "<Annotations></Annotations>" =
        Fmi3Annotations.decode "<Annotations></Annotations>" ∧
      Fmi3Annotations.encode { annotations := [] } =
        Fmi3Annotations.encode { annotations := [] } :=
  C10_deterministic _ _ _ _ rfl rfl

end FmiSchema
